import Mathlib

/-!
Verification of the Winix C545 ESPHome protocol bridge
(`src/components/winix_c545/winix_c545.cpp`).

The development shallowly embeds the protocol layer: the line framer
(`readline_`), the sentence router (`parse_sentence_`), the application
message codec (`parse_aws_sentence_`, `write_state`), the handshake state
machine (`update_handshake_state_`), and the fan state projection
(`WinixC545Fan::update_state`).  Bytes are `Nat` values below 256; the
C `char` parameter of `readline_` is signed on the target toolchain, so a
byte at or above 128 compares negative there.  Machine integers are
modelled as `Nat`/`Int` with explicit reductions modulo 2^8, 2^16 and 2^32
at the points where the C code stores into `uint8_t`/`uint16_t`/`uint32_t`.
-/

namespace Winix

/-- Helper turning a string literal into its character list. -/
def chars (s : String) : List Char := s.data

/-! ## Line framer (`readline_`) -/

/-- Maximum sentence length, from `WinixC545Component::MAX_LINE_LENGTH`. -/
def MAX_LINE_LENGTH : Nat := 255

/-- Framer state: the bytes accumulated so far in the static line buffer.
The C code keeps a flat 255-byte buffer and a static cursor `position`;
the list holds exactly the bytes written at indices `0 ..< position`. -/
structure Framer where
  buf : List Nat
deriving DecidableEq, Repr

/-- Embedding of `WinixC545Component::readline_` for one fed byte.
`data` is the raw byte (0‥255); the C parameter is a signed `char`, so a
value of 128 or more is negative there and trips the `data < 0` early
return.  `\n` (10) is ignored, `\r` (13) terminates and returns the
accumulated line, anything else is appended while the cursor is below
`MAX_LINE_LENGTH - 1`. -/
def readline (data : Nat) (f : Framer) : Option (List Nat) × Framer :=
  if 128 ≤ data then (none, f)
  else if data = 10 then (none, f)
  else if data = 13 then (some f.buf, ⟨[]⟩)
  else if f.buf.length < MAX_LINE_LENGTH - 1 then (none, ⟨f.buf ++ [data]⟩)
  else (none, f)

/-- Feed a byte sequence one at a time, collecting all framed sentences. -/
def runFramer (f : Framer) : List Nat → List (List Nat) × Framer
  | [] => ([], f)
  | b :: rest =>
    let r := readline b f
    let rec' := runFramer r.2 rest
    (r.1.toList ++ rec'.1, rec'.2)

/-- Split a list at every occurrence of `sep`; the separators are dropped
and the (possibly empty) segments between them are returned.  The last
segment is the trailing, unterminated remainder. -/
def splitSep {α : Type} [DecidableEq α] (sep : α) : List α → List (List α)
  | [] => [[]]
  | a :: rest =>
    if a = sep then [] :: splitSep sep rest
    else
      match splitSep sep rest with
      | [] => [[a]]
      | s :: ss => (a :: s) :: ss

/-- A byte survives into a framed sentence iff it is neither a newline nor
negative as a signed char (value 128 or more). -/
def keepByte (b : Nat) : Bool := (b != 10) && decide (b < 128)

/-- Independent description of the sentence produced from one CR-terminated
segment: newline and high bytes removed, truncated to 254 bytes. -/
def cleanSeg (s : List Nat) : List Nat := (s.filter keepByte).take (MAX_LINE_LENGTH - 1)

/-- Independent description of all sentences framed from a byte sequence:
one per carriage return, each the cleaned segment before that CR. -/
def frameSpec (bytes : List Nat) : List (List Nat) :=
  ((splitSep 13 bytes).dropLast).map cleanSeg

/-- Variant of `frameSpec` that accounts for bytes already sitting in the
framer buffer when feeding starts; used to strengthen the induction. -/
def frameSpecFrom (l : List Nat) (bytes : List Nat) : List (List Nat) :=
  match splitSep 13 bytes with
  | [] => []
  | [_] => []
  | s :: ss => ((l ++ s.filter keepByte).take (MAX_LINE_LENGTH - 1)) :: (ss.dropLast).map cleanSeg

/-! ## Application message codec (`parse_aws_sentence_`, `write_state`) -/

/-- Handshake progress, from the `HandshakeState` enum. -/
inductive HandshakeState where
  | Reset
  | DeviceReady
  | McuReady
  | MIB
  | Connected
deriving DecidableEq, Repr

/-- Lexicographic byte comparison of two character lists, matching
`std::string operator<` used by the ordered `std::map`. -/
def charsLt : List Char → List Char → Bool
  | [], [] => false
  | [], _ :: _ => true
  | _ :: _, [] => false
  | c :: cs, d :: ds =>
    if c.toNat < d.toNat then true
    else if d.toNat < c.toNat then false
    else charsLt cs ds

/-- Ordered insert-or-assign on the association list modelling the
`std::map<std::string, uint16_t>` state map. -/
def mapInsert (m : List (String × Nat)) (k : String) (v : Nat) : List (String × Nat) :=
  match m with
  | [] => [(k, v)]
  | p :: rest =>
    if charsLt k.data p.1.data then (k, v) :: p :: rest
    else if k = p.1 then (k, v) :: rest
    else p :: mapInsert rest k v

/-- Numeric value of a digit string. -/
def digitsVal (ds : List Char) : Nat := ds.foldl (fun a c => 10 * a + (c.toNat - 48)) 0

/-- Embedding of `sscanf(sentence, "AWS_SEND=A%3d", &api_code)`: the
literal header must match, then `%3d` skips whitespace and reads at most
three digits (at least one). -/
def extractApiCode (s : List Char) : Option Nat :=
  if (chars "AWS_SEND=A").isPrefixOf s then
    let t := (s.drop 10).dropWhile (fun c => c.isWhitespace)
    let ds := (t.takeWhile Char.isDigit).take 3
    if ds = [] then none else some (digitsVal ds)
  else none

/-- Embedding of `sscanf(token, "\"%3s\":\"%d\"", key, &value)`: a quote,
then `%3s` (whitespace skip, then at most three non-whitespace key
characters), then the literal quote-colon-quote, then `%d` (whitespace
skip, optional sign, at least one digit).  The trailing quote literal of
the format is irrelevant: both conversions have already succeeded, so the
call returns 2 either way. -/
def parseToken (t : List Char) : Option (List Char × Int) :=
  match t with
  | '"' :: r =>
    let r1 := r.dropWhile (fun c => c.isWhitespace)
    let key := (r1.takeWhile (fun c => !c.isWhitespace)).take 3
    if key = [] then none
    else
      match r1.drop key.length with
      | '"' :: ':' :: '"' :: r3 =>
        let r4 := r3.dropWhile (fun c => c.isWhitespace)
        let signed : Bool × List Char :=
          match r4 with
          | '-' :: r5 => (true, r5)
          | '+' :: r5 => (false, r5)
          | _ => (false, r4)
        let ds := signed.2.takeWhile Char.isDigit
        if ds = [] then none
        else some (key, if signed.1 then -(digitsVal ds : Int) else (digitsVal ds : Int))
      | _ => none
  | _ => none

/-- Truncation applied when a parsed value is stored into the
`uint16_t`-valued state map. -/
def storeVal (v : Int) : Nat := (v % 65536).toNat

/-- The tokens `strtok(sentence + 15, ",")` iterates over: the comma
separated pieces of the payload, empty pieces skipped. -/
def tokensOf (s : List Char) : List (List Char) :=
  (splitSep ',' (s.drop 15)).filter (fun t => t ≠ [])

/-- Shared protocol state: pending key/value buffer (`states_`), handshake
state and last-event timestamp. -/
structure MState where
  states : List (String × Nat)
  hs : HandshakeState
  lastEvent : Nat
deriving DecidableEq, Repr

/-- Token loop of the 210/220 branch: parse each token into the state map,
stopping at the first malformed token.  The Boolean reports whether every
token parsed (the loop ran to completion and `valid` was set). -/
def applyTokens (states : List (String × Nat)) : List (List Char) → List (String × Nat) × Bool
  | [] => (states, true)
  | t :: ts =>
    match parseToken t with
    | none => (states, false)
    | some kv => applyTokens (mapInsert states (String.mk kv.1) (storeVal kv.2)) ts

/-- Result of decoding one application message.  `outOfBounds` marks the
branch where the 210/220 path advances the read pointer by 15 positions
past the end of the sentence string. -/
inductive AwsOutcome where
  | normal (st : MState) (emitted : List String)
  | outOfBounds
deriving DecidableEq, Repr

/-- Embedding of `WinixC545Component::parse_aws_sentence_`.  `now` is the
value `millis()` returns during this call; `emitted` collects the
sentences passed to `write_sentence_` in order. -/
def parse_aws_sentence (now : Nat) (st : MState) (s : List Char) : AwsOutcome :=
  match extractApiCode s with
  | none => .normal st []
  | some code =>
    if code = 102 then
      .normal ⟨st.states, .Reset, now⟩ ["AWS_SEND:OK", "AWS_IND:SEND OK", "AWS_IND:DISCONNECTED"]
    else if code = 210 ∨ code = 220 then
      if s.length < 15 then .outOfBounds
      else
        let res := applyTokens st.states (tokensOf s)
        if res.2 then .normal ⟨res.1, .Connected, now⟩ ["AWS_SEND:OK", "AWS_IND:SEND OK"]
        else .normal ⟨res.1, st.hs, st.lastEvent⟩ []
    else if code = 230 ∨ code = 240 then
      .normal ⟨st.states, .Connected, now⟩ ["AWS_SEND:OK", "AWS_IND:SEND OK"]
    else .normal st []

/-- One encoded key/value chunk, as laid down by
`snprintf(buffer, 16, "\"%s\":\"%d\",", key, value)`: at most 15
characters are kept. -/
def entryChunk (k : String) (v : Nat) : List Char :=
  (('"' :: k.data) ++ ('"' :: ':' :: '"' :: (Nat.repr v).data) ++ ['"', ',']).take 15

/-- Embedding of `WinixC545Component::write_state`: `none` when nothing is
written, otherwise the single sentence handed to `write_sentence_`. -/
def write_state (m : List (String × Nat)) : Option (List Char) :=
  if m = [] then none
  else
    some ((m.foldl (fun acc p => acc ++ entryChunk p.1 p.2)
      (chars "AWS_RECV:A211 12 \x7b")).dropLast ++ ['\x7d'])

/-! ## Handshake state machine (`update_handshake_state_`) -/

/-- Elapsed time `millis() - last_handshake_event_` as computed on
`uint32_t` values, wrapping modulo 2^32. -/
def elapsed32 (now last : Nat) : Nat := (now % 4294967296 + (4294967296 - last % 4294967296)) % 4294967296

/-- Embedding of `WinixC545Component::update_handshake_state_`: given the
current `millis()` value, the handshake state and the last event stamp,
return the new state, the new stamp and the emitted sentences. -/
def update_handshake_state (now : Nat) (hs : HandshakeState) (lastEvent : Nat) :
    HandshakeState × Nat × List String :=
  match hs with
  | .Connected => (.Connected, lastEvent, [])
  | .Reset | .DeviceReady =>
    if elapsed32 now lastEvent < 10000 then (hs, lastEvent, [])
    else (.DeviceReady, now, ["DEVICEREADY"])
  | .MIB => (.Connected, now, ["AWS_IND:CONNECT OK"])
  | .McuReady => (.McuReady, lastEvent, [])

/-! ## Fan state projection (`WinixC545Fan::update_state`) -/

/-- Power and speed as held by the fan object.  `speed` is stored through
a `uint8_t` local in the C code, hence always reduced modulo 256 there. -/
structure FanState where
  power : Bool
  speed : Nat
deriving DecidableEq, Repr

/-- Modelled from the spec: the power attribute key (`KEY_POWER`), "A02"
per the data model; the defining header constant is not in the sources. -/
def KEY_POWER : String := "A02"

/-- Modelled from the spec: the speed attribute key (`KEY_SPEED`), "A04"
per the data model; the defining header constant is not in the sources. -/
def KEY_SPEED : String := "A04"

/-- Decode of a raw speed value into the fan ordinal: 5 (turbo) becomes 4,
6 (sleep) becomes 0, everything else is stored as-is through the
`uint8_t` local, i.e. reduced modulo 256. -/
def speed_from_raw (v : Nat) : Nat := if v = 5 then 4 else if v = 6 then 0 else v % 256

/-- One iteration of the state loop in `WinixC545Fan::update_state`. -/
def fanStep (acc : FanState × Bool) (p : String × Nat) : FanState × Bool :=
  if p.1 = KEY_POWER then
    if decide (p.2 = 1) ≠ acc.1.power then (⟨decide (p.2 = 1), acc.1.speed⟩, true) else acc
  else if p.1 = KEY_SPEED then
    if speed_from_raw p.2 ≠ acc.1.speed then (⟨acc.1.power, speed_from_raw p.2⟩, true) else acc
  else acc

/-- Embedding of `WinixC545Fan::update_state`: fold the decoded state map
over the fan state; the Boolean reports whether `publish_state` runs. -/
def fan_update_state (f : FanState) (m : List (String × Nat)) : FanState × Bool :=
  if m = [] then (f, false)
  else m.foldl fanStep (f, false)

/-! ## Sentence router and main loop (`parse_sentence_`, `loop`) -/

/-- Modelled from the spec: the inbound sentence header (`RX_PREFIX`),
`"AT*ICT*"`; the defining header constant is not in the sources. -/
def rxHeader : String := "AT*ICT*"

/-- Embedding of `WinixC545Component::parse_sentence_`: check the inbound
header, then dispatch by first matching sentence kind. -/
def parse_sentence (now : Nat) (st : MState) (sentence : List Char) : AwsOutcome :=
  if ¬ (chars rxHeader).isPrefixOf sentence then .normal st []
  else
    let t := sentence.drop (chars rxHeader).length
    if (chars "AWS_SEND").isPrefixOf t then parse_aws_sentence now st t
    else if (chars "MCU_READY").isPrefixOf t then .normal ⟨st.states, .McuReady, now⟩ ["MCU_READY:OK"]
    else if (chars "MIB=32").isPrefixOf t then .normal ⟨st.states, .MIB, now⟩ ["MIB:OK 7595"]
    else if (chars "SETMIB").isPrefixOf t then .normal st ["SETMIB:OK"]
    else if (chars "SMODE").isPrefixOf t then .normal st ["SMODE:OK"]
    else .normal st []

/-- Full per-tick machine state: unread serial bytes, framer buffer and
protocol state. -/
structure LoopState where
  pending : List Nat
  framer : Framer
  st : MState
deriving DecidableEq, Repr

/-- Result of one tick; `outOfBounds` propagates the 210/220 pointer
overrun from the codec. -/
inductive LoopResult where
  | ok (ls : LoopState) (emitted : List String)
  | outOfBounds
deriving DecidableEq, Repr

/-- Read loop of `WinixC545Component::loop`: feed available bytes into the
framer one at a time and route the first complete sentence, leaving the
remaining bytes queued. -/
def drain (now : Nat) (st : MState) (f : Framer) : List Nat → LoopResult
  | [] => .ok ⟨[], f, st⟩ []
  | b :: rest =>
    match readline b f with
    | (some sentence, f') =>
      match parse_sentence now st (sentence.map Char.ofNat) with
      | .normal st' em => .ok ⟨rest, f', st'⟩ em
      | .outOfBounds => .outOfBounds
    | (none, f') => drain now st f' rest

/-- Embedding of `WinixC545Component::loop`: run the handshake check, run
the publish step (which drains the pending buffer; observer side effects
are external), then read serial data only when at least a header's worth
of bytes is available. -/
def loopTick (now : Nat) (ls : LoopState) : LoopResult :=
  let h := update_handshake_state now ls.st.hs ls.st.lastEvent
  let st1 : MState := ⟨[], h.1, h.2.1⟩
  if ls.pending.length < (chars rxHeader).length then .ok ⟨ls.pending, ls.framer, st1⟩ h.2.2
  else
    match drain now st1 ls.framer ls.pending with
    | .ok ls' em2 => .ok ls' (h.2.2 ++ em2)
    | .outOfBounds => .outOfBounds

/-! ## Spec-side descriptions used to state the encode claim -/

/-- One quoted key/value pair as the spec's sentence grammar writes it. -/
def pairChars (p : String × Nat) : List Char :=
  ('"' :: p.1.data) ++ ('"' :: ':' :: '"' :: (Nat.repr p.2).data) ++ ['"']

/-- Join pieces with a separator between consecutive pieces. -/
def joinSep (sep : List Char) : List (List Char) → List Char
  | [] => []
  | [x] => x
  | x :: xs => x ++ sep ++ joinSep sep xs

/-! ## Theorems -/

theorem splitSep_ne_nil {α : Type} [DecidableEq α] (sep : α) (l : List α) :
    splitSep sep l ≠ [] := by
  cases l with
  | nil => simp [splitSep]
  | cons a rest =>
    simp only [splitSep]
    split
    · simp
    · split <;> simp_all

theorem splitSep_length {α : Type} [DecidableEq α] (sep : α) (l : List α) :
    (splitSep sep l).length = l.count sep + 1 := by
  induction l with
  | nil => simp [splitSep]
  | cons a rest ih =>
    simp only [splitSep]
    by_cases h : a = sep
    · simp [h, List.count_cons, ih]
    · simp only [if_neg h]
      rcases hs : splitSep sep rest with _ | ⟨s, ss⟩
      · exact absurd hs (splitSep_ne_nil sep rest)
      · have := ih
        rw [hs] at this
        simp [List.count_cons, h, ← this]

theorem frameSpecFrom_nil (bytes : List Nat) : frameSpecFrom [] bytes = frameSpec bytes := by
  unfold frameSpecFrom frameSpec
  rcases h : splitSep 13 bytes with _ | ⟨s, ss⟩
  · exact absurd h (splitSep_ne_nil 13 bytes)
  · cases ss with
    | nil => simp
    | cons s2 ss2 => simp [cleanSeg]

/-- Main framer characterization: running the framer from a buffer holding
`l` produces exactly the cleaned CR-delimited segments, the first one
prefixed by `l`. -/
theorem runFramer_split (bytes : List Nat) : ∀ l : List Nat, l.length ≤ MAX_LINE_LENGTH - 1 →
    (runFramer ⟨l⟩ bytes).1 = frameSpecFrom l bytes := by
  induction bytes with
  | nil =>
    intro l _
    simp [runFramer, frameSpecFrom, splitSep]
  | cons b rest ih =>
    intro l hl
    by_cases hb : 128 ≤ b
    · -- negative signed char: dropped
      have hb13 : b ≠ 13 := by omega
      have hkeep : keepByte b = false := by simp [keepByte]; omega
      simp only [runFramer, readline, if_pos hb, Option.toList_none, List.nil_append]
      rw [ih l hl]
      unfold frameSpecFrom
      simp only [splitSep, if_neg hb13]
      rcases hs : splitSep 13 rest with _ | ⟨s, ss⟩
      · exact absurd hs (splitSep_ne_nil 13 rest)
      · cases ss with
        | nil => simp
        | cons s2 ss2 => simp [hkeep]
    · by_cases h10 : b = 10
      · -- newline: dropped
        have hkeep : keepByte b = false := by simp [keepByte, h10]
        simp only [runFramer, readline, if_neg hb, if_pos h10, Option.toList_none,
          List.nil_append]
        rw [ih l hl]
        unfold frameSpecFrom
        have hb13 : b ≠ 13 := by omega
        simp only [splitSep, if_neg hb13]
        rcases hs : splitSep 13 rest with _ | ⟨s, ss⟩
        · exact absurd hs (splitSep_ne_nil 13 rest)
        · cases ss with
          | nil => simp
          | cons s2 ss2 => simp [hkeep]
      · by_cases h13 : b = 13
        · -- carriage return: emit current buffer
          simp only [runFramer, readline, if_neg hb, if_neg h10, if_pos h13,
            Option.toList_some, List.singleton_append]
          rw [ih [] (by simp)]
          unfold frameSpecFrom
          simp only [h13, splitSep, if_pos rfl]
          rcases hs : splitSep 13 rest with _ | ⟨s, ss⟩
          · exact absurd hs (splitSep_ne_nil 13 rest)
          · cases ss with
            | nil => simp [List.take_of_length_le hl]
            | cons s2 ss2 => simp [List.take_of_length_le hl, cleanSeg]
        · -- ordinary byte: appended if below capacity
          have hkeep : keepByte b = true := by
            simp [keepByte]
            constructor
            · omega
            · omega
          simp only [runFramer, readline, if_neg hb, if_neg h10, if_neg h13]
          by_cases hcap : l.length < MAX_LINE_LENGTH - 1
          · simp only [if_pos hcap, Option.toList_none, List.nil_append]
            rw [ih (l ++ [b]) (by simp; omega)]
            unfold frameSpecFrom
            simp only [splitSep, if_neg h13]
            rcases hs : splitSep 13 rest with _ | ⟨s, ss⟩
            · exact absurd hs (splitSep_ne_nil 13 rest)
            · cases ss with
              | nil => simp
              | cons s2 ss2 => simp [hkeep, List.append_assoc]
          · simp only [if_neg hcap, Option.toList_none, List.nil_append]
            rw [ih l hl]
            unfold frameSpecFrom
            simp only [splitSep, if_neg h13]
            rcases hs : splitSep 13 rest with _ | ⟨s, ss⟩
            · exact absurd hs (splitSep_ne_nil 13 rest)
            · cases ss with
              | nil => simp
              | cons s2 ss2 =>
                simp only [hkeep, List.filter_cons_of_pos, List.cons.injEq]
                have hlen : MAX_LINE_LENGTH - 1 ≤ l.length := by omega
                constructor
                · rw [List.take_append_eq_append_take, List.take_append_eq_append_take]
                  have h1 : MAX_LINE_LENGTH - 1 - l.length = 0 := by omega
                  simp [h1]
                · trivial

/-- C2 counterexample: the claim as stated says the produced sentence
equals the bytes fed since the previous carriage return with only the
newline bytes removed (truncated to 254).  Feeding the byte 0x80 followed
by CR produces the empty sentence, not the one-byte sentence [0x80],
because a byte at or above 128 is negative as a signed char and is
discarded by the failed-read check. -/
theorem c2_counterexample :
    (runFramer ⟨[]⟩ [128, 13]).1 ≠
      [(([128] : List Nat).filter (fun b => b != 10)).take (MAX_LINE_LENGTH - 1)] := by
  decide

/-- C2 (amended): for every byte sequence fed one at a time from a fresh
framer, one sentence is returned per carriage-return byte fed, and each
returned sentence equals the bytes fed since the previous carriage return
with newline bytes AND bytes at or above 128 (negative as signed char)
removed, truncated to the first MAX_LINE_LENGTH - 1 = 254 surviving
bytes. -/
theorem c2_framer_characterization (bytes : List Nat) :
    (runFramer ⟨[]⟩ bytes).1 = frameSpec bytes ∧
    (runFramer ⟨[]⟩ bytes).1.length = bytes.count 13 := by
  have h := runFramer_split bytes [] (by simp)
  rw [h, frameSpecFrom_nil]
  refine ⟨rfl, ?_⟩
  unfold frameSpec
  rw [List.length_map, List.length_dropLast, splitSep_length]
  omega

/-- C9: a byte with value 128 or more (negative as a signed char) is
treated as a failed read: the framer returns no sentence and its buffer
is unchanged, and consequently no framed sentence ever contains such a
byte. -/
theorem c9_high_bytes :
    (∀ b f, 128 ≤ b → readline b f = (none, f)) ∧
    (∀ bytes s, s ∈ (runFramer ⟨[]⟩ bytes).1 → ∀ b ∈ s, b < 128) := by
  constructor
  · intro b f hb
    simp [readline, hb]
  · intro bytes s hs b hb
    rw [runFramer_split bytes [] (by simp), frameSpecFrom_nil] at hs
    unfold frameSpec at hs
    obtain ⟨seg, -, rfl⟩ := List.mem_map.mp hs
    unfold cleanSeg at hb
    have hmem := List.take_subset _ _ hb
    have hkeep := (List.mem_filter.mp hmem).2
    simp [keepByte] at hkeep
    exact hkeep.2

/-- C9 witness: byte 200 is dropped with the buffer untouched, and the
byte 66 of the framed sentence from [66, CR] is below 128. -/
theorem c9_high_bytes_witness :
    readline 200 ⟨[]⟩ = (none, ⟨[]⟩) ∧ (66 : Nat) < 128 :=
  ⟨c9_high_bytes.1 200 ⟨[]⟩ (by decide),
   c9_high_bytes.2 [66, 13] [66] (by decide) 66 (by decide)⟩

/-- Token loop behavior when a malformed token is reached: every earlier
token has already been merged into the state map when the loop stops. -/
theorem applyTokens_append_fail (bad : List Char) (post : List (List Char)) :
    ∀ (pre : List (List Char)) (states : List (String × Nat)),
    (∀ t ∈ pre, parseToken t ≠ none) → parseToken bad = none →
    applyTokens states (pre ++ bad :: post) = ((applyTokens states pre).1, false) := by
  intro pre
  induction pre with
  | nil =>
    intro states _ hbad
    simp [applyTokens, hbad]
  | cons t ts ih =>
    intro states hpre hbad
    have ht : parseToken t ≠ none := hpre t (by simp)
    rcases hh : parseToken t with _ | kv
    · exact absurd hh ht
    · simp only [List.cons_append, applyTokens, hh]
      exact ih _ (fun u hu => hpre u (by simp [hu])) hbad

/-- C1 counterexample: decoding the 210 message with payload tokens
"A02":"1" and "A04":x (second one malformed) aborts with no
acknowledgement, but the pending buffer is NOT what it was before the
message: the key/value pair from the first, well-formed token has been
applied.  The claim as stated (buffer exactly unchanged) is false. -/
theorem c1_counterexample :
    parse_aws_sentence 3 ⟨[], .Connected, 1⟩
        (chars "AWS_SEND=A210 \x7b\"A02\":\"1\",\"A04\":x\x7d") =
      .normal ⟨[("A02", 1)], .Connected, 1⟩ [] ∧
    ([("A02", 1)] : List (String × Nat)) ≠ [] := by
  constructor
  · decide
  · decide

/-- C1 (amended): for a 210/220 message whose token list has a malformed
token, decoding aborts at that token with no acknowledgement sentences
emitted and the handshake state and event time unchanged, but the
key/value pairs of the tokens before the malformed one remain applied to
the pending state buffer. -/
theorem c1_partial_tokens_persist (now : Nat) (st : MState) (s : List Char) (c : Nat)
    (pre post : List (List Char)) (bad : List Char)
    (hc : extractApiCode s = some c) (hcc : c = 210 ∨ c = 220) (hlen : 15 ≤ s.length)
    (htok : tokensOf s = pre ++ bad :: post)
    (hpre : ∀ t ∈ pre, parseToken t ≠ none) (hbad : parseToken bad = none) :
    parse_aws_sentence now st s =
      .normal ⟨(applyTokens st.states pre).1, st.hs, st.lastEvent⟩ [] := by
  have hres : applyTokens st.states (tokensOf s) = ((applyTokens st.states pre).1, false) := by
    rw [htok]
    exact applyTokens_append_fail bad post pre st.states hpre hbad
  unfold parse_aws_sentence
  rw [hc]
  rcases hcc with rfl | rfl <;> simp [hres, Nat.not_lt.mpr hlen]

/-- C1 witness: a concrete malformed 210 message from a non-empty prior
buffer, with the first token's pair merged and nothing else changed. -/
theorem c1_partial_tokens_persist_witness :
    parse_aws_sentence 4 ⟨[("S08", 2)], .MIB, 2⟩
        (chars "AWS_SEND=A210 \x7b\"A02\":\"1\",\"A04\":x\x7d") =
      .normal ⟨[("A02", 1), ("S08", 2)], .MIB, 2⟩ [] := by
  have h := c1_partial_tokens_persist 4 ⟨[("S08", 2)], .MIB, 2⟩
    (chars "AWS_SEND=A210 \x7b\"A02\":\"1\",\"A04\":x\x7d") 210
    [chars "\"A02\":\"1\""] [] (chars "\"A04\":x\x7d")
    (by decide) (Or.inl rfl) (by decide) (by decide) (by decide) (by decide)
  rw [h]
  decide

/-- C3: the per-tick handshake update does nothing when Connected; in
Reset or DeviceReady it does nothing while fewer than 10000 ms have
elapsed, and otherwise moves to DeviceReady, stamps the event time and
emits exactly one DEVICEREADY; in MIB it unconditionally moves to
Connected, stamps the time and emits exactly one AWS_IND:CONNECT OK.
Since the Connected case emits nothing and stays Connected, no further
DEVICEREADY is emitted by this check once Connected. -/
theorem c3_handshake_update :
    (∀ now le, update_handshake_state now .Connected le = (.Connected, le, [])) ∧
    (∀ now le hs, (hs = .Reset ∨ hs = .DeviceReady) → elapsed32 now le < 10000 →
      update_handshake_state now hs le = (hs, le, [])) ∧
    (∀ now le hs, (hs = .Reset ∨ hs = .DeviceReady) → ¬ elapsed32 now le < 10000 →
      update_handshake_state now hs le = (.DeviceReady, now, ["DEVICEREADY"])) ∧
    (∀ now le, update_handshake_state now .MIB le = (.Connected, now, ["AWS_IND:CONNECT OK"])) := by
  refine ⟨fun now le => rfl, ?_, ?_, fun now le => rfl⟩
  · rintro now le hs (rfl | rfl) h <;> simp [update_handshake_state, h]
  · rintro now le hs (rfl | rfl) h <;> simp [update_handshake_state, h]

/-- C3 witness: from Reset at time 0, ticking at 20000 ms emits one
DEVICEREADY; ticking at 500 ms does nothing. -/
theorem c3_handshake_update_witness :
    update_handshake_state 20000 .Reset 0 = (.DeviceReady, 20000, ["DEVICEREADY"]) ∧
    update_handshake_state 500 .DeviceReady 0 = (.DeviceReady, 0, []) :=
  ⟨c3_handshake_update.2.2.1 20000 0 .Reset (Or.inl rfl) (by decide),
   c3_handshake_update.2.1 500 0 .DeviceReady (Or.inr rfl) (by decide)⟩

/-- C4: an application message marked valid — a 210/220 message whose
tokens all parse, or a 230/240 message — makes the parser emit exactly
AWS_SEND:OK then AWS_IND:SEND OK, force the handshake state to Connected
whatever it was, and stamp the event time. -/
theorem c4_valid_ack (now : Nat) (st : MState) (s : List Char)
    (h : (∃ c, extractApiCode s = some c ∧ (c = 210 ∨ c = 220) ∧ 15 ≤ s.length ∧
            (applyTokens st.states (tokensOf s)).2 = true) ∨
         extractApiCode s = some 230 ∨ extractApiCode s = some 240) :
    ∃ sts, parse_aws_sentence now st s =
      .normal ⟨sts, .Connected, now⟩ ["AWS_SEND:OK", "AWS_IND:SEND OK"] := by
  rcases h with ⟨c, hc, hcc, hlen, happ⟩ | hc | hc
  · refine ⟨(applyTokens st.states (tokensOf s)).1, ?_⟩
    unfold parse_aws_sentence
    rw [hc]
    rcases hcc with rfl | rfl <;> simp [happ, Nat.not_lt.mpr hlen]
  · exact ⟨st.states, by unfold parse_aws_sentence; rw [hc]; simp⟩
  · exact ⟨st.states, by unfold parse_aws_sentence; rw [hc]; simp⟩

/-- C4 witness: a 230 message from Reset acknowledges and forces
Connected. -/
theorem c4_valid_ack_witness :
    ∃ sts, parse_aws_sentence 5 ⟨[], .Reset, 0⟩ (chars "AWS_SEND=A230") =
      .normal ⟨sts, .Connected, 5⟩ ["AWS_SEND:OK", "AWS_IND:SEND OK"] :=
  c4_valid_ack 5 ⟨[], .Reset, 0⟩ (chars "AWS_SEND=A230") (Or.inr (Or.inl (by decide)))

/-- C5: a 102 message, from any handshake state, emits exactly
AWS_SEND:OK, AWS_IND:SEND OK, AWS_IND:DISCONNECTED in that order, resets
the handshake state to Reset, stamps the event time, and leaves the
pending buffer alone (it is not treated as valid traffic, so it does not
force Connected). -/
theorem c5_disconnect (now : Nat) (st : MState) (s : List Char)
    (h : extractApiCode s = some 102) :
    parse_aws_sentence now st s =
      .normal ⟨st.states, .Reset, now⟩
        ["AWS_SEND:OK", "AWS_IND:SEND OK", "AWS_IND:DISCONNECTED"] := by
  unfold parse_aws_sentence
  rw [h]
  simp

/-- C5 witness: AWS_SEND=A102 received while Connected. -/
theorem c5_disconnect_witness :
    parse_aws_sentence 9 ⟨[("S08", 97)], .Connected, 7⟩ (chars "AWS_SEND=A102") =
      .normal ⟨[("S08", 97)], .Reset, 9⟩
        ["AWS_SEND:OK", "AWS_IND:SEND OK", "AWS_IND:DISCONNECTED"] :=
  c5_disconnect 9 ⟨[("S08", 97)], .Connected, 7⟩ (chars "AWS_SEND=A102") (by decide)

/-- C8: a 210/220 message shorter than 15 characters (the length of the
literal "AWS_SEND=A2XX \x7b" the parser unconditionally skips) drives the
parser to index past the end of the sentence string: the out-of-bounds
branch of the embedding is reached. -/
theorem c8_oob (now : Nat) (st : MState) (s : List Char) (c : Nat)
    (hc : extractApiCode s = some c) (hcc : c = 210 ∨ c = 220) (hlen : s.length < 15) :
    parse_aws_sentence now st s = .outOfBounds := by
  unfold parse_aws_sentence
  rw [hc]
  rcases hcc with rfl | rfl <;> simp [hlen]

/-- C8 witness: the 13-character sentence AWS_SEND=A210 with no payload
reaches the out-of-bounds branch. -/
theorem c8_oob_witness :
    parse_aws_sentence 0 ⟨[], .Reset, 0⟩ (chars "AWS_SEND=A210") = .outOfBounds :=
  c8_oob 0 ⟨[], .Reset, 0⟩ (chars "AWS_SEND=A210") 210 (by decide) (Or.inl rfl) (by decide)

/-- With a key of at most 3 characters and a 16-bit value the formatted
chunk fits the 15-character snprintf budget, so no truncation occurs. -/
theorem entryChunk_eq (k : String) (v : Nat) (hk : k.data.length ≤ 3) (hv : v < 65536) :
    entryChunk k v = pairChars (k, v) ++ [','] := by
  have hrepr : (Nat.repr v).length ≤ 5 := Nat.repr_length v 5 (by norm_num) (by norm_num; omega)
  unfold entryChunk pairChars
  refine Eq.trans (List.take_of_length_le ?_) ?_
  · have h5 : (Nat.repr v).data.length ≤ 5 := hrepr
    have e1 : (Nat.repr v).data.length = (Nat.repr v).length := rfl
    have e2 : k.data.length = k.length := rfl
    simp only [List.length_append, List.length_cons]
    simp
    omega
  · simp [List.append_assoc]

/-- The encode loop appends one untruncated chunk per entry. -/
theorem write_fold_eq (m : List (String × Nat)) :
    ∀ acc : List Char, (∀ p ∈ m, p.1.data.length ≤ 3 ∧ p.2 < 65536) →
    m.foldl (fun acc p => acc ++ entryChunk p.1 p.2) acc =
      acc ++ ((m.map pairChars).map (fun t => t ++ [','])).flatten := by
  induction m with
  | nil => intro acc _; simp
  | cons p rest ih =>
    intro acc hm
    have hp := hm p (by simp)
    rw [List.foldl_cons, ih _ (fun q hq => hm q (by simp [hq])),
      entryChunk_eq p.1 p.2 hp.1 hp.2]
    simp [List.append_assoc]

/-- Flattening comma-terminated pieces equals the comma-joined pieces
followed by one trailing comma. -/
theorem flatten_comma_join (x : List Char) (xs : List (List Char)) :
    ((x :: xs).map (fun t => t ++ [','])).flatten = joinSep [','] (x :: xs) ++ [','] := by
  induction xs generalizing x with
  | nil => simp [joinSep]
  | cons x2 rest ih =>
    simp only [List.map_cons, List.flatten_cons] at ih ⊢
    rw [ih x2]
    simp [joinSep, List.append_assoc]

/-- C6: encoding a non-empty state map (3-character keys, 16-bit values)
produces exactly one sentence: the AWS_RECV:A211 12 header, an opening
brace, the quoted key/value pairs joined by commas, and a closing brace
in place of the trailing comma; encoding the empty map produces no
sentence at all. -/
theorem c6_encode :
    (∀ m : List (String × Nat), m ≠ [] → (∀ p ∈ m, p.1.data.length ≤ 3 ∧ p.2 < 65536) →
      write_state m =
        some (chars "AWS_RECV:A211 12 \x7b" ++ joinSep [','] (m.map pairChars) ++ ['\x7d'])) ∧
    write_state [] = none := by
  constructor
  · intro m hm hshort
    unfold write_state
    rw [if_neg hm, write_fold_eq m _ hshort]
    rcases m with _ | ⟨p, rest⟩
    · exact absurd rfl hm
    · rw [List.map_cons, flatten_comma_join, ← List.append_assoc, List.dropLast_concat]
  · rfl

/-- C6 witness: the single pending change A02 = 0 encodes to
AWS_RECV:A211 12 followed by the one-pair brace-delimited payload, and
the empty map encodes to nothing. -/
theorem c6_encode_witness :
    write_state [("A02", 0)] = some (chars "AWS_RECV:A211 12 \x7b\"A02\":\"0\"\x7d") := by
  rw [c6_encode.1 [("A02", 0)] (by decide) (by decide)]
  rfl

/-- Entries with keys other than the power key never change the power
field of the fold accumulator. -/
theorem fanFold_power (m : List (String × Nat)) :
    ∀ a : FanState × Bool, KEY_POWER ∉ m.map Prod.fst →
    (m.foldl fanStep a).1.power = a.1.power := by
  induction m with
  | nil => intro a _; rfl
  | cons p rest ih =>
    intro a hmem
    simp only [List.map_cons, List.mem_cons, not_or] at hmem
    rw [List.foldl_cons, ih _ hmem.2]
    unfold fanStep
    rw [if_neg (fun h => hmem.1 h.symm)]
    by_cases hsp : p.1 = KEY_SPEED
    · rw [if_pos hsp]
      split <;> rfl
    · rw [if_neg hsp]

/-- Entries with keys other than the speed key never change the speed
field of the fold accumulator. -/
theorem fanFold_speed (m : List (String × Nat)) :
    ∀ a : FanState × Bool, KEY_SPEED ∉ m.map Prod.fst →
    (m.foldl fanStep a).1.speed = a.1.speed := by
  induction m with
  | nil => intro a _; rfl
  | cons p rest ih =>
    intro a hmem
    simp only [List.map_cons, List.mem_cons, not_or] at hmem
    rw [List.foldl_cons, ih _ hmem.2]
    unfold fanStep
    by_cases hpw : p.1 = KEY_POWER
    · rw [if_pos hpw]
      split <;> rfl
    · rw [if_neg hpw, if_neg (fun h => hmem.1 h.symm)]

/-- When the state map has no repeated keys, the fold publishes only if
the final power or speed differs from the initial one. -/
theorem fanFold_publish (m : List (String × Nat)) :
    ∀ f : FanState, (m.map Prod.fst).Nodup →
    (m.foldl fanStep (f, false)).2 = true →
    (m.foldl fanStep (f, false)).1.power ≠ f.power ∨
      (m.foldl fanStep (f, false)).1.speed ≠ f.speed := by
  induction m with
  | nil =>
    intro f _ h
    exact absurd h (by simp)
  | cons p rest ih =>
    intro f hnd hpub
    simp only [List.map_cons, List.nodup_cons] at hnd
    simp only [List.foldl_cons] at hpub ⊢
    by_cases hpw : p.1 = KEY_POWER
    · by_cases hch : (decide (p.2 = 1) : Bool) = f.power
      · have hstep : fanStep (f, false) p = (f, false) := by
          unfold fanStep
          rw [if_pos hpw]
          simp [hch]
        rw [hstep] at hpub ⊢
        exact ih f hnd.2 hpub
      · have hstep : fanStep (f, false) p = (⟨decide (p.2 = 1), f.speed⟩, true) := by
          unfold fanStep
          rw [if_pos hpw]
          simp [hch]
        rw [hstep] at hpub ⊢
        left
        rw [fanFold_power rest _ (by rw [← hpw]; exact hnd.1)]
        exact hch
    · by_cases hsp : p.1 = KEY_SPEED
      · by_cases hch : speed_from_raw p.2 = f.speed
        · have hstep : fanStep (f, false) p = (f, false) := by
            unfold fanStep
            rw [if_neg hpw, if_pos hsp]
            simp [hch]
          rw [hstep] at hpub ⊢
          exact ih f hnd.2 hpub
        · have hstep : fanStep (f, false) p = (⟨f.power, speed_from_raw p.2⟩, true) := by
            unfold fanStep
            rw [if_neg hpw, if_pos hsp]
            simp [hch]
          rw [hstep] at hpub ⊢
          right
          rw [fanFold_speed rest _ (by rw [← hsp]; exact hnd.1)]
          exact hch
      · have hstep : fanStep (f, false) p = (f, false) := by
          unfold fanStep
          rw [if_neg hpw, if_neg hsp]
        rw [hstep] at hpub ⊢
        exact ih f hnd.2 hpub

/-- C7 counterexample: the claim as stated says every raw speed value
other than 5 and 6 maps to itself, but the raw value 256 is stored
through a uint8_t local and becomes 0, not 256. -/
theorem c7_counterexample :
    (fan_update_state ⟨false, 1⟩ [("A04", 256)]).1.speed = 0 ∧ (0 : Nat) ≠ 256 := by
  constructor
  · decide
  · decide

/-- C7 (amended): applying the speed key maps raw 5 to ordinal 4, raw 6
to ordinal 0, and every other raw value to itself reduced modulo 256
(uint8_t storage); and — for maps without repeated keys, as produced by
the std::map state buffer — the fan publishes only when the resulting
power or speed differs from its current value. -/
theorem c7_speed_publish :
    speed_from_raw 5 = 4 ∧ speed_from_raw 6 = 0 ∧
    (∀ v, v ≠ 5 → v ≠ 6 → speed_from_raw v = v % 256) ∧
    (∀ (f : FanState) (m : List (String × Nat)), (m.map Prod.fst).Nodup →
      (fan_update_state f m).2 = true →
      (fan_update_state f m).1.power ≠ f.power ∨
        (fan_update_state f m).1.speed ≠ f.speed) := by
  refine ⟨rfl, rfl, ?_, ?_⟩
  · intro v h5 h6
    simp [speed_from_raw, h5, h6]
  · intro f m hnd hpub
    unfold fan_update_state at hpub ⊢
    by_cases hm : m = []
    · rw [if_pos hm] at hpub
      exact absurd hpub (by simp)
    · rw [if_neg hm] at hpub ⊢
      exact fanFold_publish m f hnd hpub

/-- C7 witness: raw speed 5 applied to a stopped fan yields ordinal 4 and
a publish with the speed changed. -/
theorem c7_speed_publish_witness :
    (fan_update_state ⟨false, 0⟩ [("A04", 5)]).1.power ≠ false ∨
      (fan_update_state ⟨false, 0⟩ [("A04", 5)]).1.speed ≠ 0 :=
  c7_speed_publish.2.2.2 ⟨false, 0⟩ [("A04", 5)] (by decide) (by decide)

/-- C10: on a tick where fewer bytes are available than the length of the
receive header, the loop reads nothing: the pending bytes and the framer
buffer are untouched and no sentence is routed, while the handshake check
and the publish step (which drains the pending state buffer) still run. -/
theorem c10_loop_backpressure (now : Nat) (ls : LoopState)
    (h : ls.pending.length < (chars rxHeader).length) :
    loopTick now ls =
      .ok ⟨ls.pending, ls.framer,
          ⟨[], (update_handshake_state now ls.st.hs ls.st.lastEvent).1,
            (update_handshake_state now ls.st.hs ls.st.lastEvent).2.1⟩⟩
        (update_handshake_state now ls.st.hs ls.st.lastEvent).2.2 := by
  unfold loopTick
  simp [h]

/-- C10 witness: one pending byte (fewer than the 7-byte header), a
half-full framer buffer and a non-empty pending state buffer: the byte
stays queued, the framer keeps its bytes, the buffer is drained by the
publish step and the handshake check ran. -/
theorem c10_loop_backpressure_witness :
    loopTick 0 ⟨[65], ⟨[66]⟩, ⟨[("S08", 5)], .Reset, 0⟩⟩ =
      .ok ⟨[65], ⟨[66]⟩, ⟨[], .Reset, 0⟩⟩ [] := by
  rw [c10_loop_backpressure 0 ⟨[65], ⟨[66]⟩, ⟨[("S08", 5)], .Reset, 0⟩⟩ (by decide)]
  rfl

end Winix
